import Mathlib

/-!
Verification of `torchsample/utils.py` (diegslva/torchsample): the coordinate-grid
generator `th_iterproduct`, the 2D affine transform `th_affine_2d`, and the
nearest-neighbor / bilinear / trilinear resamplers, shallowly embedded over exact
rational arithmetic.

Modelling conventions, fixed once for the whole file:
* Tensors are channel-first and contiguous, as assumed by the Python code when it
  reads `x.stride()`: a `(C, H, W)` tensor has strides `(H*W, W, 1)` and a
  `(C, H, W, D)` tensor has strides `(H*W*D, W*D, D, 1)`.  A tensor is a flat
  buffer `ℕ → ℚ` together with its sizes.
* Python float arithmetic is modelled by exact `ℚ` arithmetic.
* Indexing a flat tensor with a possibly negative integer index follows the
  wrap-around convention of Python / numpy-style advanced indexing:
  a negative index `s` addresses slot `len + s`.
* `torch.round` is modelled as round-half-to-even, `torch.clamp (v, lo, hi)` as
  `min (max v lo) hi`, and `Tensor.float()` of a nonnegative integer as the cast
  into `ℚ`; all are exact on the inputs the claims exercise.
* Failures of the underlying library (the `view_as` size check, and the fall
  through of the `mode` dispatch that leaves `x_transformed` unbound and raises
  `UnboundLocalError` at the `return`) are modelled with `Except ThError`.
-/

/-- Errors the Python code can raise: `viewMismatch` models the `RuntimeError`
of `view_as` when the element counts differ, `unboundLocal` models the
`UnboundLocalError` raised at `return x_transformed` when no interpolation-mode
branch was taken. -/
inductive ThError where
  | viewMismatch : ThError
  | unboundLocal : ThError
deriving DecidableEq

/-- A channel-first 2D image tensor of size `(C, H, W)` over a contiguous flat
buffer.  Only offsets below `C * (H * W)` are meaningful. -/
structure Tensor2 where
  C : ℕ
  H : ℕ
  W : ℕ
  buf : ℕ → ℚ

/-- A channel-first 3D image tensor of size `(C, H, W, D)`. -/
structure Tensor3 where
  C : ℕ
  H : ℕ
  W : ℕ
  D : ℕ
  buf : ℕ → ℚ

/-- A `(3, 3)` transformation matrix as passed to `th_affine_2d`
(`utils.py` line 63: "matrix : torch.Tensor of size (3, 3) or (2, 3)"). -/
abbrev Mat3 : Type := Fin 3 → Fin 3 → ℚ

/-- The row of `np.indices(dims).reshape((len(dims), -1)).T` at flat position `k`
(`utils.py` line 41): component `a` is `k / prod (dims after a) % dims[a]`, the
mixed-radix digit of `k`, which is exactly what flattening `np.indices` in
C-order yields. -/
def npIndexAt : List ℕ → ℕ → List ℕ
  | [], _ => []
  | d :: ds, k => (k / ds.prod % d) :: npIndexAt ds k

/-- `th_iterproduct(*dims)` (`utils.py` lines 40-41): the rows of
`np.indices(dims).reshape((len(dims), -1)).T`, one per flat position. -/
def th_iterproduct (dims : List ℕ) : List (List ℕ) :=
  (List.range dims.prod).map (npIndexAt dims)

/-- Modelled from the spec ("the full Cartesian product of `range(n_1) x ... x
range(n_D)`", "the last axis fastest and the first axis slowest"): the row-major
Cartesian product of the per-axis ranges, used only to compare `th_iterproduct`
against the spec's words. -/
def specCartesianProduct : List ℕ → List (List ℕ)
  | [] => [[]]
  | d :: ds => (List.range d).flatMap (fun i => (specCartesianProduct ds).map (fun t => i :: t))

/-- The two-axis instance of `th_iterproduct` used by `th_affine_2d`
(`utils.py` line 88), with rows as pairs. -/
def th_iterproduct2 (H W : ℕ) : List (ℕ × ℕ) :=
  (List.range (H * W)).map (fun k => (k / W % H, k % W))

/-- The re-centering offset `x.size(i) / 2. + 0.5` (`utils.py` lines 92-93). -/
def centerShift (n : ℕ) : ℚ := (n : ℚ) / 2 + 1 / 2

/-- The larger of two rationals, written out so that it evaluates by
unfolding; equal to `max` (see `maxQ_eq`). -/
def maxQ (a b : ℚ) : ℚ := if a ≤ b then b else a

/-- The smaller of two rationals, written out so that it evaluates by
unfolding; equal to `min` (see `minQ_eq`). -/
def minQ (a b : ℚ) : ℚ := if a ≤ b then a else b

/-- `torch.clamp(q, lo, hi)`: the lower bound is applied first, so an empty
interval (`lo > hi`) collapses everything to `hi`. -/
def clampQ (q lo hi : ℚ) : ℚ := minQ (maxQ q lo) hi

/-- `torch.round`: round half to even. -/
def roundHalfEven (q : ℚ) : ℤ :=
  if q - ⌊q⌋ < 1 / 2 then ⌊q⌋
  else if 1 / 2 < q - ⌊q⌋ then ⌊q⌋ + 1
  else if ⌊q⌋ % 2 = 0 then ⌊q⌋ else ⌊q⌋ + 1

/-- The per-axis lattice index resolved by `th_nearest_interp_2d`
(`utils.py` lines 117-118): clamp to `[0, size-1]`, then round. -/
def nearestIdx (q : ℚ) (n : ℕ) : ℤ := roundHalfEven (clampQ q 0 ((n : ℚ) - 1))

/-- The per-axis clamped coordinate of the multilinear resamplers
(`utils.py` lines 136, 140, 234, 238, 242): clamp to `[0, size-2]`. -/
def linBase (q : ℚ) (n : ℕ) : ℚ := clampQ q 0 ((n : ℚ) - 2)

/-- The per-axis fractional interpolation weight `xd = x - x.floor()`
(`utils.py` lines 144-145, 246-248), taken after the `[0, size-2]` clamp. -/
def fracPart (q : ℚ) (n : ℕ) : ℚ := linBase q n - ⌊linBase q n⌋

/-- Bilinear corner weight of the floor/floor corner (`utils.py` line 164). -/
def w00 (xd yd : ℚ) : ℚ := (1 - xd) * (1 - yd)

/-- Bilinear corner weight of the ceil/floor corner (`utils.py` line 165). -/
def w10 (xd yd : ℚ) : ℚ := xd * (1 - yd)

/-- Bilinear corner weight of the floor/ceil corner (`utils.py` line 166). -/
def w01 (xd yd : ℚ) : ℚ := (1 - xd) * yd

/-- Bilinear corner weight of the ceil/ceil corner (`utils.py` line 167). -/
def w11 (xd yd : ℚ) : ℚ := xd * yd

/-- Trilinear corner weight, floor on all axes (`utils.py` line 273). -/
def w000 (xd yd zd : ℚ) : ℚ := (1 - xd) * (1 - yd) * (1 - zd)

/-- Trilinear corner weight (`utils.py` line 274). -/
def w100 (xd yd zd : ℚ) : ℚ := xd * (1 - yd) * (1 - zd)

/-- Trilinear corner weight (`utils.py` line 275). -/
def w010 (xd yd zd : ℚ) : ℚ := (1 - xd) * yd * (1 - zd)

/-- Trilinear corner weight (`utils.py` line 276). -/
def w001 (xd yd zd : ℚ) : ℚ := (1 - xd) * (1 - yd) * zd

/-- Trilinear corner weight (`utils.py` line 277). -/
def w101 (xd yd zd : ℚ) : ℚ := xd * (1 - yd) * zd

/-- Trilinear corner weight (`utils.py` line 278). -/
def w011 (xd yd zd : ℚ) : ℚ := (1 - xd) * yd * zd

/-- Trilinear corner weight (`utils.py` line 279). -/
def w110 (xd yd zd : ℚ) : ℚ := xd * yd * (1 - zd)

/-- Trilinear corner weight, ceil on all axes (`utils.py` line 280). -/
def w111 (xd yd zd : ℚ) : ℚ := xd * yd * zd

/-- Read channel `i` of the per-channel flattened view `th_c_flatten` at spatial
offset `s` (`utils.py` lines 123-126); a negative `s` wraps around the channel
slab of length `H * W`, following Python indexing. -/
def Tensor2.readRow (x : Tensor2) (i : ℕ) (s : ℤ) : ℚ :=
  if 0 ≤ s then x.buf (i * (x.H * x.W) + s.toNat)
  else x.buf (i * (x.H * x.W) + ((x.H * x.W : ℤ) + s).toNat)

/-- Read the fully flattened buffer `th_flatten` at offset `s`
(`utils.py` lines 153-158); a negative `s` wraps around the whole buffer of
length `C * H * W`, following Python indexing. -/
def Tensor2.readFlat (x : Tensor2) (s : ℤ) : ℚ :=
  if 0 ≤ s then x.buf s.toNat
  else x.buf ((x.C * (x.H * x.W) : ℤ) + s).toNat

/-- The value gathered by `th_nearest_interp_2d` for buffer position `n`
(`utils.py` lines 116-126): position `n` splits as channel `n / (H*W)` and
spatial slot `n % (H*W)`; the coordinate at that slot is clamped to
`[0, size-1]` per axis, rounded, dotted with the spatial strides `(W, 1)`, and
the resulting flat spatial index is read from that channel's slab. -/
def nearestBuf (x : Tensor2) (coords : List (ℚ × ℚ)) (n : ℕ) : ℚ :=
  match coords[n % (x.H * x.W)]? with
  | some c => x.readRow (n / (x.H * x.W))
      (nearestIdx c.1 x.H * (x.W : ℤ) + nearestIdx c.2 x.W)
  | none => 0

/-- `th_nearest_interp_2d` (`utils.py` lines 112-128).  The final
`mapped_vals.view_as(input)` requires the stacked `(C, len coords)` result to
have as many elements as the `(C, H, W)` input. -/
def th_nearest_interp_2d (x : Tensor2) (coords : List (ℚ × ℚ)) : Except ThError Tensor2 :=
  if x.C * coords.length = x.C * (x.H * x.W) then
    Except.ok ⟨x.C, x.H, x.W, nearestBuf x coords⟩
  else Except.error ThError.viewMismatch

/-- The value computed by `th_bilinear_interp_2d` for output position `p`
(`utils.py` lines 135-167): the coordinate at slot `p` is clamped to
`[0, size-2]` per axis, floored, and the four corners are gathered from the
fully flattened buffer with strides `(W, 1)` (note: no channel loop) and
combined with the bilinear corner weights. -/
def bilinBuf (x : Tensor2) (coords : List (ℚ × ℚ)) (p : ℕ) : ℚ :=
  match coords[p]? with
  | some c =>
      let x0 : ℤ := ⌊linBase c.1 x.H⌋
      let y0 : ℤ := ⌊linBase c.2 x.W⌋
      let xd := fracPart c.1 x.H
      let yd := fracPart c.2 x.W
      x.readFlat (x0 * (x.W : ℤ) + y0) * w00 xd yd
        + x.readFlat ((x0 + 1) * (x.W : ℤ) + y0) * w10 xd yd
        + x.readFlat (x0 * (x.W : ℤ) + (y0 + 1)) * w01 xd yd
        + x.readFlat ((x0 + 1) * (x.W : ℤ) + (y0 + 1)) * w11 xd yd
  | none => 0

/-- `th_bilinear_interp_2d` (`utils.py` lines 131-169).  `x_mapped` has one
element per coordinate row, and `x_mapped.view_as(input)` requires that count to
equal `C * H * W`; there is no per-channel loop in the source. -/
def th_bilinear_interp_2d (x : Tensor2) (coords : List (ℚ × ℚ)) : Except ThError Tensor2 :=
  if coords.length = x.C * (x.H * x.W) then
    Except.ok ⟨x.C, x.H, x.W, bilinBuf x coords⟩
  else Except.error ThError.viewMismatch

/-- The mapped coordinate grid built by `th_affine_2d` (`utils.py` lines
84-101): the integer grid over `(H, W)` cast to float, optionally shifted by
`-(size/2 + 0.5)` per axis, right-multiplied by `A.t()` and translated by `b`
(`new_coords = coords.mm(A.t()) + b` with `A = matrix[:2,:2]`,
`b = matrix[:2,2]`), then optionally shifted back. -/
def affineGrid2 (H W : ℕ) (matrix : Mat3) (center : Bool) : List (ℚ × ℚ) :=
  let coords : List (ℚ × ℚ) :=
    (th_iterproduct2 H W).map (fun c => ((c.1 : ℚ), (c.2 : ℚ)))
  let coords2 :=
    if center then coords.map (fun c => (c.1 - centerShift H, c.2 - centerShift W))
    else coords
  let newCoords := coords2.map (fun c =>
    (matrix 0 0 * c.1 + matrix 0 1 * c.2 + matrix 0 2,
     matrix 1 0 * c.1 + matrix 1 1 * c.2 + matrix 1 2))
  if center then newCoords.map (fun c => (c.1 + centerShift H, c.2 + centerShift W))
  else newCoords

/-- `th_affine_2d` (`utils.py` lines 54-109): build and map the coordinate
grid, then dispatch on the mode string; a mode outside
`{"nearest", "bilinear"}` takes no branch, so the `return x_transformed` on
line 109 raises `UnboundLocalError`. -/
def th_affine_2d (x : Tensor2) (matrix : Mat3) (mode : String) (center : Bool) :
    Except ThError Tensor2 :=
  let newCoords := affineGrid2 x.H x.W matrix center
  if mode = "nearest" then th_nearest_interp_2d x newCoords
  else if mode = "bilinear" then th_bilinear_interp_2d x newCoords
  else Except.error ThError.unboundLocal

/-- Read the fully flattened 3D buffer at offset `s` (`utils.py` lines
258-267), with Python wrap-around for negative offsets. -/
def Tensor3.readFlat (x : Tensor3) (s : ℤ) : ℚ :=
  if 0 ≤ s then x.buf s.toNat
  else x.buf ((x.C * (x.H * (x.W * x.D)) : ℤ) + s).toNat

/-- The value computed by `th_trilinear_interp_3d` for output position `p`
(`utils.py` lines 233-280): per-axis clamp to `[0, size-2]`, floor, gather the
eight corners from the fully flattened buffer with spatial strides
`(W*D, D, 1)`, and combine with the trilinear corner weights. -/
def trilinBuf (x : Tensor3) (coords : List (ℚ × ℚ × ℚ)) (p : ℕ) : ℚ :=
  match coords[p]? with
  | some c =>
      let x0 : ℤ := ⌊linBase c.1 x.H⌋
      let y0 : ℤ := ⌊linBase c.2.1 x.W⌋
      let z0 : ℤ := ⌊linBase c.2.2 x.D⌋
      let xd := fracPart c.1 x.H
      let yd := fracPart c.2.1 x.W
      let zd := fracPart c.2.2 x.D
      let sx : ℤ := (x.W * x.D : ℕ)
      let sy : ℤ := (x.D : ℕ)
      x.readFlat (x0 * sx + y0 * sy + z0) * w000 xd yd zd
        + x.readFlat ((x0 + 1) * sx + y0 * sy + z0) * w100 xd yd zd
        + x.readFlat (x0 * sx + (y0 + 1) * sy + z0) * w010 xd yd zd
        + x.readFlat (x0 * sx + y0 * sy + (z0 + 1)) * w001 xd yd zd
        + x.readFlat ((x0 + 1) * sx + y0 * sy + (z0 + 1)) * w101 xd yd zd
        + x.readFlat (x0 * sx + (y0 + 1) * sy + (z0 + 1)) * w011 xd yd zd
        + x.readFlat ((x0 + 1) * sx + (y0 + 1) * sy + z0) * w110 xd yd zd
        + x.readFlat ((x0 + 1) * sx + (y0 + 1) * sy + (z0 + 1)) * w111 xd yd zd
  | none => 0

/-- `th_trilinear_interp_3d` (`utils.py` lines 229-282), with the same
`view_as` element-count requirement as the bilinear case and no channel loop. -/
def th_trilinear_interp_3d (x : Tensor3) (coords : List (ℚ × ℚ × ℚ)) :
    Except ThError Tensor3 :=
  if coords.length = x.C * (x.H * (x.W * x.D)) then
    Except.ok ⟨x.C, x.H, x.W, x.D, trilinBuf x coords⟩
  else Except.error ThError.viewMismatch

/-- Extensional equality of 2D tensors: equal sizes and equal buffers on every
meaningful offset. -/
def Tensor2.EqOn (y x : Tensor2) : Prop :=
  y.C = x.C ∧ y.H = x.H ∧ y.W = x.W ∧
    ∀ n, n < x.C * (x.H * x.W) → y.buf n = x.buf n

/-- The error component of a transform result, if any. -/
def errOf (e : Except ThError Tensor2) : Option ThError :=
  match e with
  | Except.ok _ => none
  | Except.error t => some t

/-- The buffer value of a successful transform result at offset `n`. -/
def bufAt (e : Except ThError Tensor2) (n : ℕ) : Option ℚ :=
  match e with
  | Except.ok y => some (y.buf n)
  | Except.error _ => none

/-- The `(3, 3)` identity matrix: linear part `A = I`, translation `b = 0`. -/
def idMat3 : Mat3 := fun i j => if i = j then 1 else 0

/-- A 2-channel `2 x 2` image whose channel 0 is all zeros and channel 1 is all
ones. -/
def twoChannelZeroOne : Tensor2 := ⟨2, 2, 2, fun n => if n < 4 then 0 else 1⟩

/-- A single-channel `6 x 6` image whose pixel at flat offset `n` has value
`n`, so every pixel is distinct. -/
def ramp6 : Tensor2 := ⟨1, 6, 6, fun n => (n : ℚ)⟩

/-- The 90-degree rotation as an augmented `(3, 3)` matrix: the linear part
`[[0, -1], [1, 0]]` is orthonormal and the translation column is zero. -/
def rot90 : Mat3 :=
  fun i j =>
    if i = 0 ∧ j = 1 then -1
    else if i = 1 ∧ j = 0 then 1
    else if i = 2 ∧ j = 2 then 1
    else 0

/-- A single-channel image of spatial size `1 x 2`: size 1 along the first
spatial axis, with distinguishable values 5 and 9. -/
def sizeOneAxis : Tensor2 := ⟨1, 1, 2, fun n => if n = 0 then 5 else 9⟩

/-- The in-range coordinate grid of `sizeOneAxis`, passed directly to the
bilinear resampler. -/
def sizeOneCoords : List (ℚ × ℚ) := [(0, 0), (0, 1)]

/-- A matrix equal to the identity on its first two rows, with third row all
fives. -/
def idRowsThirdFive : Mat3 := fun i j => if i = 2 then 5 else idMat3 i j

/-- A matrix equal to the identity on its first two rows, with third row all
sevens. -/
def idRowsThirdSeven : Mat3 := fun i j => if i = 2 then 7 else idMat3 i j

/-! ### Basic bridging lemmas -/

/-- `maxQ` agrees with `max`. -/
theorem maxQ_eq (a b : ℚ) : maxQ a b = max a b := (max_def a b).symm

/-- `minQ` agrees with `min`. -/
theorem minQ_eq (a b : ℚ) : minQ a b = min a b := (min_def a b).symm

/-! ### The index grid generator -/

/-- The mixed-radix digits of `k` only depend on `k` modulo the total number of
grid points. -/
theorem npIndexAt_add_mul (ds : List ℕ) :
    ∀ k i, npIndexAt ds (k + i * ds.prod) = npIndexAt ds k := by
  induction ds with
  | nil => intro k i; rfl
  | cons d ds ih =>
    intro k i
    rcases Nat.eq_zero_or_pos ds.prod with hP | hP
    · simp [npIndexAt, List.prod_cons, hP]
    · simp only [npIndexAt, List.prod_cons]
      have h1 : k + i * (d * ds.prod) = k + i * d * ds.prod := by ring
      rw [h1, Nat.add_mul_div_right _ _ hP, Nat.add_mul_mod_self_right, ih k (i * d)]

/-- `range (d * P)` splits into `d` consecutive blocks of length `P`. -/
theorem range_mul_flatMap (d P : ℕ) :
    List.range (d * P) =
      (List.range d).flatMap (fun i => (List.range P).map (fun r => i * P + r)) := by
  induction d with
  | zero => simp
  | succ d ih =>
    rw [Nat.succ_mul, List.range_add, List.range_succ, List.flatMap_append, ih,
      List.flatMap_singleton]

/-- C2: for every list of per-axis sizes, `th_iterproduct` enumerates the full
Cartesian product of the per-axis ranges in row-major order, with the last axis
varying fastest and the first axis slowest; in particular on dims `[2, 3]` it
produces exactly `[(0,0), (0,1), (0,2), (1,0), (1,1), (1,2)]`. -/
theorem th_iterproduct_is_cartesian_product :
    (∀ dims : List ℕ, th_iterproduct dims = specCartesianProduct dims) ∧
      th_iterproduct [2, 3] = [[0, 0], [0, 1], [0, 2], [1, 0], [1, 1], [1, 2]] := by
  have main : ∀ dims : List ℕ, th_iterproduct dims = specCartesianProduct dims := by
    intro dims
    induction dims with
    | nil => rfl
    | cons d ds ih =>
      unfold th_iterproduct specCartesianProduct
      rw [List.prod_cons, range_mul_flatMap, List.map_flatMap]
      refine List.flatMap_congr ?_
      intro i hi
      rw [List.map_map, ← ih]
      unfold th_iterproduct
      rw [List.map_map]
      refine List.map_congr_left ?_
      intro r hr
      rw [List.mem_range] at hi hr
      have hP : 0 < ds.prod := Nat.pos_of_ne_zero (by intro h; rw [h] at hr; omega)
      simp only [Function.comp_apply, npIndexAt]
      have h1 : i * ds.prod + r = r + i * ds.prod := Nat.add_comm _ _
      rw [h1, Nat.add_mul_div_right _ _ hP, Nat.div_eq_of_lt hr, Nat.zero_add,
        Nat.mod_eq_of_lt hi, npIndexAt_add_mul]
  exact ⟨main, by decide⟩

/-! ### Rounding and clamping -/

/-- Round-half-to-even never goes below the floor, so it maps nonnegative
inputs to nonnegative integers. -/
theorem roundHalfEven_nonneg (q : ℚ) (h : 0 ≤ q) : 0 ≤ roundHalfEven q := by
  have h0 : (0 : ℤ) ≤ ⌊q⌋ := Int.floor_nonneg.mpr h
  unfold roundHalfEven
  split
  · exact h0
  · split
    · omega
    · split <;> omega

/-- Round-half-to-even never exceeds an integer upper bound of its input. -/
theorem roundHalfEven_le_intCast (q : ℚ) (m : ℤ) (h : q ≤ (m : ℚ)) :
    roundHalfEven q ≤ m := by
  have hf : ⌊q⌋ ≤ m := by
    have := Int.floor_mono h
    rwa [Int.floor_intCast] at this
  unfold roundHalfEven
  split
  · exact hf
  · have hlt : ⌊q⌋ < m := by
      rename_i h1
      push_neg at h1
      have : (⌊q⌋ : ℚ) < m := by linarith [Int.floor_le q]
      exact_mod_cast this
    split
    · omega
    · split <;> omega

/-- C7: out-of-range coordinates are clamped, not wrapped: the per-axis index
resolved by the nearest resampler always lies in `[0, n-1]` (for an axis of
size `n ≥ 1`), the clamped coordinate of the multilinear resampler always lies
in `[0, n-2]` (for `n ≥ 2`), and coordinate `-5` on an axis of size 10
resolves to lattice index 0 (nearest) and to pre-floor coordinate 0
(multilinear). -/
theorem resampler_coordinate_clamping (q : ℚ) (n : ℕ) (h : 1 ≤ n) :
    (0 ≤ nearestIdx q n ∧ nearestIdx q n ≤ (n : ℤ) - 1) ∧
      (2 ≤ n → 0 ≤ linBase q n ∧ linBase q n ≤ (n : ℚ) - 2) ∧
      nearestIdx (-5) 10 = 0 ∧ linBase (-5) 10 = 0 := by
  refine ⟨?_, ?_, ?_, ?_⟩
  · have hc : clampQ q 0 ((n : ℚ) - 1) = min (max q 0) ((n : ℚ) - 1) := by
      rw [clampQ, minQ_eq, maxQ_eq]
    constructor
    · refine roundHalfEven_nonneg _ ?_
      rw [hc]
      refine le_min (le_max_right q 0) ?_
      have : (1 : ℚ) ≤ (n : ℚ) := by exact_mod_cast h
      linarith
    · refine roundHalfEven_le_intCast _ _ ?_
      rw [hc]
      push_cast
      exact min_le_right _ _
  · intro h2
    have hc : linBase q n = min (max q 0) ((n : ℚ) - 2) := by
      rw [linBase, clampQ, minQ_eq, maxQ_eq]
    constructor
    · rw [hc]
      refine le_min (le_max_right q 0) ?_
      have : (2 : ℚ) ≤ (n : ℚ) := by exact_mod_cast h2
      linarith
    · rw [hc]
      exact min_le_right _ _
  · norm_num [nearestIdx, clampQ, minQ, maxQ, roundHalfEven]
  · norm_num [linBase, clampQ, minQ, maxQ]

/-- Witness for `resampler_coordinate_clamping` at `q = -5`, `n = 10`. -/
theorem resampler_coordinate_clamping_witness :
    1 ≤ 10 ∧
      ((0 ≤ nearestIdx (-5) 10 ∧ nearestIdx (-5) 10 ≤ ((10 : ℕ) : ℤ) - 1) ∧
        (2 ≤ 10 → 0 ≤ linBase (-5) 10 ∧ linBase (-5) 10 ≤ ((10 : ℕ) : ℚ) - 2) ∧
        nearestIdx (-5) 10 = 0 ∧ linBase (-5) 10 = 0) :=
  ⟨by norm_num, resampler_coordinate_clamping (-5) 10 (by norm_num)⟩

/-- C3: for every output coordinate of the multilinear resamplers, the corner
weights — per axis the fractional part `fracPart` for the ceil corner and its
complement for the floor corner — sum to exactly 1 in exact arithmetic: the
four bilinear weights of `th_bilinear_interp_2d` and the eight trilinear
weights of `th_trilinear_interp_3d`. -/
theorem multilinear_corner_weights_sum_to_one (q1 q2 q3 : ℚ) (n1 n2 n3 : ℕ) :
    w00 (fracPart q1 n1) (fracPart q2 n2) + w10 (fracPart q1 n1) (fracPart q2 n2)
        + w01 (fracPart q1 n1) (fracPart q2 n2) + w11 (fracPart q1 n1) (fracPart q2 n2) = 1 ∧
      w000 (fracPart q1 n1) (fracPart q2 n2) (fracPart q3 n3)
        + w100 (fracPart q1 n1) (fracPart q2 n2) (fracPart q3 n3)
        + w010 (fracPart q1 n1) (fracPart q2 n2) (fracPart q3 n3)
        + w001 (fracPart q1 n1) (fracPart q2 n2) (fracPart q3 n3)
        + w101 (fracPart q1 n1) (fracPart q2 n2) (fracPart q3 n3)
        + w011 (fracPart q1 n1) (fracPart q2 n2) (fracPart q3 n3)
        + w110 (fracPart q1 n1) (fracPart q2 n2) (fracPart q3 n3)
        + w111 (fracPart q1 n1) (fracPart q2 n2) (fracPart q3 n3) = 1 := by
  constructor
  · unfold w00 w10 w01 w11
    ring
  · unfold w000 w100 w010 w001 w101 w011 w110 w111
    ring

/-! ### The affine mapper reads only the first two matrix rows -/

/-- The mapped grid depends only on the first two rows of the matrix. -/
theorem affineGrid2_rows_agree (H W : ℕ) (center : Bool) (m1 m2 : Mat3)
    (h : ∀ j : Fin 3, m1 0 j = m2 0 j ∧ m1 1 j = m2 1 j) :
    affineGrid2 H W m1 center = affineGrid2 H W m2 center := by
  unfold affineGrid2
  simp only [(h 0).1, (h 1).1, (h 2).1, (h 0).2, (h 1).2, (h 2).2]

/-- C10: two `3 x 3` matrices that agree on their first two rows produce
identical `th_affine_2d` outputs for every tensor, mode, and center flag: the
third row is never read, since only the top-left `2 x 2` block and the first
two entries of the last column enter the coordinate map. -/
theorem th_affine_2d_ignores_third_row (x : Tensor2) (m1 m2 : Mat3) (mode : String)
    (center : Bool) (h : ∀ j : Fin 3, m1 0 j = m2 0 j ∧ m1 1 j = m2 1 j) :
    th_affine_2d x m1 mode center = th_affine_2d x m2 mode center := by
  unfold th_affine_2d
  rw [affineGrid2_rows_agree x.H x.W center m1 m2 h]

/-- Witness for `th_affine_2d_ignores_third_row`: two matrices with identity
first two rows and differing third rows transform `twoChannelZeroOne`
identically. -/
theorem th_affine_2d_ignores_third_row_witness :
    (∀ j : Fin 3, idRowsThirdFive 0 j = idRowsThirdSeven 0 j ∧
        idRowsThirdFive 1 j = idRowsThirdSeven 1 j) ∧
      th_affine_2d twoChannelZeroOne idRowsThirdFive "nearest" true =
        th_affine_2d twoChannelZeroOne idRowsThirdSeven "nearest" true :=
  ⟨by decide, th_affine_2d_ignores_third_row twoChannelZeroOne idRowsThirdFive
    idRowsThirdSeven "nearest" true (by decide)⟩

/-! ### Identity transform in nearest mode -/

/-- The grid mapped by the identity matrix without centering is the integer
grid itself. -/
theorem affineGrid2_id_get (H W p : ℕ) (hp : p < H * W) :
    (affineGrid2 H W idMat3 false)[p]? =
      some (((p / W % H : ℕ) : ℚ), ((p % W : ℕ) : ℚ)) := by
  unfold affineGrid2 th_iterproduct2
  simp only [Bool.false_eq_true, if_false, List.map_map, List.getElem?_map,
    List.getElem?_range hp, Option.map_some']
  simp [idMat3, Fin.ext_iff]

/-- Clamping an in-range integer coordinate to `[0, n-1]` and rounding it is
the identity. -/
theorem nearestIdx_natCast (a n : ℕ) (h : a < n) : nearestIdx (a : ℚ) n = (a : ℤ) := by
  have hle : (a : ℚ) ≤ (n : ℚ) - 1 := by
    have h1 : (a : ℚ) + 1 ≤ (n : ℚ) := by exact_mod_cast h
    linarith
  have hc : clampQ (a : ℚ) 0 ((n : ℚ) - 1) = (a : ℚ) := by
    rw [clampQ, minQ_eq, maxQ_eq, max_eq_left (Nat.cast_nonneg a), min_eq_left hle]
  rw [nearestIdx, hc]
  unfold roundHalfEven
  rw [Int.floor_natCast, if_pos]
  push_cast
  norm_num

/-- C4: for every channel-first 2D tensor, `th_affine_2d` with the identity
matrix (linear part `A = I`, translation `b = 0`), `center = false`, and mode
`"nearest"` succeeds and returns a tensor extensionally equal to its input. -/
theorem th_affine_2d_identity_nearest_is_identity (x : Tensor2) :
    ∃ y, th_affine_2d x idMat3 "nearest" false = Except.ok y ∧ y.EqOn x := by
  have hlen : (affineGrid2 x.H x.W idMat3 false).length = x.H * x.W := by
    unfold affineGrid2 th_iterproduct2
    simp
  refine ⟨⟨x.C, x.H, x.W, nearestBuf x (affineGrid2 x.H x.W idMat3 false)⟩, ?_, ?_⟩
  · unfold th_affine_2d th_nearest_interp_2d
    rw [if_pos rfl, if_pos (by rw [hlen])]
  · refine ⟨rfl, rfl, rfl, ?_⟩
    intro n hn
    have hHW : 0 < x.H * x.W := by
      rcases Nat.eq_zero_or_pos (x.H * x.W) with h0 | h0
      · rw [h0, Nat.mul_zero] at hn
        omega
      · exact h0
    have hW : 0 < x.W := by
      rcases Nat.eq_zero_or_pos x.W with h0 | h0
      · rw [h0, Nat.mul_zero] at hHW
        omega
      · exact h0
    have hp : n % (x.H * x.W) < x.H * x.W := Nat.mod_lt _ hHW
    have hdiv : n % (x.H * x.W) / x.W < x.H := (Nat.div_lt_iff_lt_mul hW).mpr hp
    show nearestBuf x (affineGrid2 x.H x.W idMat3 false) n = x.buf n
    unfold nearestBuf
    simp only [affineGrid2_id_get _ _ _ hp, Nat.mod_eq_of_lt hdiv]
    rw [nearestIdx_natCast _ _ hdiv, nearestIdx_natCast _ _ (Nat.mod_lt _ hW)]
    unfold Tensor2.readRow
    rw [if_pos (by positivity)]
    have h1 : n % (x.H * x.W) / x.W * x.W + n % (x.H * x.W) % x.W = n % (x.H * x.W) := by
      rw [Nat.mul_comm]
      exact Nat.div_add_mod _ _
    rw [show ((↑(n % (x.H * x.W) / x.W) : ℤ) * (x.W : ℤ) + (↑(n % (x.H * x.W) % x.W) : ℤ))
        = ((n % (x.H * x.W) / x.W * x.W + n % (x.H * x.W) % x.W : ℕ) : ℤ) by push_cast; ring,
      h1, Int.toNat_natCast]
    have h2 : n / (x.H * x.W) * (x.H * x.W) + n % (x.H * x.W) = n := by
      rw [Nat.mul_comm]
      exact Nat.div_add_mod _ _
    rw [h2]

/-! ### Concrete evaluations of the failing behaviours -/

/-- C5: an interpolation mode outside `{"nearest", "bilinear"}` does not fail
fast with a configuration error: `th_affine_2d` takes neither dispatch branch
and the call ends in the `UnboundLocalError` of `return x_transformed`,
after the coordinate grid has already been generated and mapped. -/
theorem th_affine_2d_unknown_mode_unbound_local :
    errOf (th_affine_2d twoChannelZeroOne idMat3 "trilinear" true) = some ThError.unboundLocal := by
  unfold th_affine_2d
  rw [if_neg (by decide), if_neg (by decide)]
  rfl

/-- C1: on a 2-channel tensor whose channel 0 is all zeros and channel 1 all
ones, `th_affine_2d` in `"bilinear"` mode does not return a channel-preserving
output: `th_bilinear_interp_2d` gathers only `H*W` values (it has no channel
loop) and `view_as` fails on the element-count mismatch `H*W` vs `2*H*W`. -/
theorem th_affine_2d_bilinear_two_channel_errors :
    errOf (th_affine_2d twoChannelZeroOne idMat3 "bilinear" false) = some ThError.viewMismatch := by
  unfold th_affine_2d
  rw [if_neg (by decide), if_pos rfl]
  unfold th_bilinear_interp_2d
  rw [if_neg]
  · rfl
  · unfold affineGrid2 th_iterproduct2 twoChannelZeroOne
    simp

/-- C6: on a source with size 1 along the first spatial axis, the bilinear
resampler raises no error: the clamp upper bound is `size - 2 = -1`, every row
coordinate collapses to `-1`, and the corner gathers run with negative flat
indices that wrap around the buffer, silently returning a value (here the
wrapped read of offset `-2` lands on buffer slot 0, value 5). -/
theorem th_bilinear_interp_2d_size_one_axis_returns_value :
    errOf (th_bilinear_interp_2d sizeOneAxis sizeOneCoords) = none ∧
      bufAt (th_bilinear_interp_2d sizeOneAxis sizeOneCoords) 0 = some 5 := by
  have hok : th_bilinear_interp_2d sizeOneAxis sizeOneCoords =
      Except.ok ⟨sizeOneAxis.C, sizeOneAxis.H, sizeOneAxis.W,
        bilinBuf sizeOneAxis sizeOneCoords⟩ := by
    unfold th_bilinear_interp_2d
    rw [if_pos (by decide)]
  constructor
  · rw [hok]
    rfl
  · rw [hok]
    show some (bilinBuf sizeOneAxis sizeOneCoords 0) = some 5
    unfold bilinBuf sizeOneCoords
    norm_num [linBase, clampQ, minQ, maxQ, fracPart, Tensor2.readFlat, sizeOneAxis,
      w00, w10, w01, w11]

/-- C8: on the even-sized square `ramp6` (6 x 6, pixel value = flat offset),
the pure rotation `rot90` with `center = true` in bilinear mode maps the
center pixel `(3,3)` (flat offset 21, value 21) to coordinate `(4, 3)`, so the
output at `(3,3)` is the exact input pixel value 27, not approximately 21:
the `size/2 + 0.5` re-centering fixes coordinate `(3.5, 3.5)`, one pixel away
from the geometric pixel center `(2.5, 2.5)`, so the center pixel's value is
not preserved. -/
theorem th_affine_2d_center_rotation_moves_center_pixel :
    bufAt (th_affine_2d ramp6 rot90 "bilinear" true) 21 = some 27 ∧
      ramp6.buf 21 = 21 ∧ (27 : ℚ) ≠ 21 := by
  have hH : ramp6.H = 6 := rfl
  have hW : ramp6.W = 6 := rfl
  have hgrid : (affineGrid2 6 6 rot90 true)[21]? = some ((4 : ℚ), (3 : ℚ)) := by
    unfold affineGrid2 th_iterproduct2
    simp only [if_pos rfl, List.map_map, List.getElem?_map,
      List.getElem?_range (by norm_num : (21 : ℕ) < 6 * 6), Option.map_some']
    norm_num [rot90, centerShift, Fin.ext_iff]
  have hok : th_affine_2d ramp6 rot90 "bilinear" true =
      Except.ok ⟨ramp6.C, ramp6.H, ramp6.W,
        bilinBuf ramp6 (affineGrid2 ramp6.H ramp6.W rot90 true)⟩ := by
    unfold th_affine_2d
    rw [if_neg (by decide), if_pos rfl]
    unfold th_bilinear_interp_2d
    rw [if_pos]
    unfold affineGrid2 th_iterproduct2 ramp6
    simp
  refine ⟨?_, by norm_num [ramp6], by norm_num⟩
  rw [hok]
  show some (bilinBuf ramp6 (affineGrid2 ramp6.H ramp6.W rot90 true) 21) = some 27
  unfold bilinBuf
  simp only [hH, hW, hgrid]
  norm_num [linBase, clampQ, minQ, maxQ, fracPart, Tensor2.readFlat, ramp6,
    w00, w10, w01, w11]
  rw [show (27 : ℤ).toNat = 27 from by decide]
  norm_num
